import Mathlib

/-!
Verification of the RPython debug-traceback subsystem
(`src/rpython/translator/c/src/debug_traceback.h` of mesapy).

The header defines a circular buffer of `(location, exctype)` entries
(`pypy_debug_tracebacks`), a masked write cursor (`pypydtcount`), the append
macro `PYPYDTSTORE`, the re-raise sentinel `PYPYDTPOS_RERAISE` and a family of
entry-point macros that expand to nothing.  The decoder
(`pypy_debug_traceback_print`) is only declared in the header; its body is not
part of this repository snapshot, so the decoding logic is modelled from the
specification (spec sections 3, 4.2 and 7).
-/

namespace DebugTraceback

/-- Embedding of `struct pypydtpos_s`: a source position record with
`const char *filename`, `const char *funcname` and `int lineno`. -/
structure pypydtpos_s where
  filename : String
  funcname : String
  lineno : Int
deriving DecidableEq

/-- The value stored in the `location` field of an entry.  In C it is a
`struct pypydtpos_s *`, which is either `NULL`, the sentinel
`PYPYDTPOS_RERAISE` (`(struct pypydtpos_s *) -1`), or a pointer to a real
position record. -/
inductive LocPtr where
  | null : LocPtr
  | sentinel : LocPtr
  | valid (p : pypydtpos_s) : LocPtr
deriving DecidableEq

/-- `#define PYPYDTPOS_RERAISE ((struct pypydtpos_s *) -1)`: the reserved
location value marking a re-raise entry. -/
def PYPYDTPOS_RERAISE : LocPtr := LocPtr.sentinel

/-- The `void *exctype` field: an opaque, equality-comparable exception-type
identity.  `none` models the `NULL` pointer ("no exception"). -/
abbrev Token := Nat

/-- Embedding of `struct pypydtentry_s`: one slot of the circular buffer. -/
structure pypydtentry_s where
  location : LocPtr
  exctype : Option Token
deriving DecidableEq

/-- A zero-initialized slot (C globals start zeroed: both pointers `NULL`). -/
def emptyEntry : pypydtentry_s := ⟨LocPtr.null, none⟩

/-- The mutable global state of the subsystem:
`pypy_debug_tracebacks` (the fixed-size array) and `pypydtcount` (the masked
write cursor), exactly as declared in the header.  `total_writes` is the
total-writes-ever counter recommended by the spec (sections 3 and 9); it is
not present in the C source, is never read by any source-embedded operation,
and is consumed only by the spec-modelled decoder below. -/
structure DTState where
  pypy_debug_tracebacks : List pypydtentry_s
  pypydtcount : Nat
  total_writes : Nat
deriving DecidableEq

/-- A freshly initialized store: all `cap` slots zeroed, cursor 0. -/
def freshState (cap : Nat) : DTState :=
  ⟨List.replicate cap emptyEntry, 0, 0⟩

/-- `#define PYPY_DEBUG_TRACEBACK_DEPTH`: 8192 under `RPY_LL_ASSERT`,
otherwise 128 (both powers of two, per the header's comment). -/
def PYPY_DEBUG_TRACEBACK_DEPTH (rpy_ll_assert : Bool) : Nat :=
  if rpy_ll_assert then 8192 else 128

/-- Embedding of the `PYPYDTSTORE(loc, etype)` macro:

    pypy_debug_tracebacks[pypydtcount].location = loc;
    pypy_debug_tracebacks[pypydtcount].exctype = etype;
    pypydtcount = (pypydtcount + 1) & (PYPY_DEBUG_TRACEBACK_DEPTH-1)

parametrized by the capacity `cap` standing for `PYPY_DEBUG_TRACEBACK_DEPTH`.
It additionally increments the ghost `total_writes` counter (see `DTState`). -/
def PYPYDTSTORE (cap : Nat) (loc : LocPtr) (etype : Option Token) (s : DTState) : DTState :=
  { pypy_debug_tracebacks := s.pypy_debug_tracebacks.set s.pypydtcount ⟨loc, etype⟩
    pypydtcount := Nat.land (s.pypydtcount + 1) (cap - 1)
    total_writes := s.total_writes + 1 }

/-- `#define OP_DEBUG_START_TRACEBACK(etype, _)` — expands to nothing:
state unchanged, no output. -/
def OP_DEBUG_START_TRACEBACK (etype : Token) (s : DTState) : DTState × List String :=
  (s, [])

/-- `#define OP_DEBUG_RERAISE_TRACEBACK(etp, _)` — expands to nothing. -/
def OP_DEBUG_RERAISE_TRACEBACK (etp : Token) (s : DTState) : DTState × List String :=
  (s, [])

/-- `#define OP_DEBUG_PRINT_TRACEBACK()` — expands to nothing. -/
def OP_DEBUG_PRINT_TRACEBACK (s : DTState) : DTState × List String :=
  (s, [])

/-- `#define PYPY_DEBUG_RECORD_TRACEBACK(funcname)` — expands to nothing. -/
def PYPY_DEBUG_RECORD_TRACEBACK (funcname : String) (s : DTState) : DTState × List String :=
  (s, [])

/-- `#define PYPY_DEBUG_CATCH_EXCEPTION(funcname, etype, is_fatal)` —
expands to nothing. -/
def PYPY_DEBUG_CATCH_EXCEPTION (funcname : String) (etype : Token)
    ( is_fatal : Bool) (s : DTState) : DTState × List String :=
  (s, [])

/-- Recorder operation `record_frame`: per the header's buffer-interpretation
comment, a propagation frame is stored as `(loc, NULL)`. -/
def record_frame (cap : Nat) (p : pypydtpos_s) (s : DTState) : DTState :=
  PYPYDTSTORE cap (LocPtr.valid p) none s

/-- Recorder operation `record_origin`: a newly raised exception is stored as
`(NULL, &etype)` (first row of the header's example). -/
def record_origin (cap : Nat) (tok : Token) (s : DTState) : DTState :=
  PYPYDTSTORE cap LocPtr.null (some tok) s

/-- Recorder operation `record_reraise`: a re-raise is stored as
`(RERAISE, &etype)` (the `PYPYDTPOS_RERAISE` row of the header's example). -/
def record_reraise (cap : Nat) (tok : Token) (s : DTState) : DTState :=
  PYPYDTSTORE cap PYPYDTPOS_RERAISE (some tok) s

/-- One recorder call, as named by the spec's data model (section 3). -/
inductive RecCall where
  | frame (p : pypydtpos_s) : RecCall
  | origin (t : Token) : RecCall
  | reraise (t : Token) : RecCall
deriving DecidableEq

/-- The entry that a recorder call stores into the buffer. -/
def toEntry : RecCall → pypydtentry_s
  | RecCall.frame p => ⟨LocPtr.valid p, none⟩
  | RecCall.origin t => ⟨LocPtr.null, some t⟩
  | RecCall.reraise t => ⟨PYPYDTPOS_RERAISE, some t⟩

/-- Dispatch one recorder call on the store. -/
def recordCall (cap : Nat) (s : DTState) : RecCall → DTState
  | RecCall.frame p => record_frame cap p s
  | RecCall.origin t => record_origin cap t s
  | RecCall.reraise t => record_reraise cap t s

/-- Run a chronological sequence of recorder calls. -/
def runCalls (cap : Nat) (s : DTState) (calls : List RecCall) : DTState :=
  calls.foldl (recordCall cap) s

/-- Modelled from the spec: the backward scan of the decoder
(`pypy_debug_traceback_print`, whose C body is not in this repository
snapshot).  Per spec section 4.2, it reads the slot immediately preceding the
write cursor, then earlier ones, for `min(total_writes_ever, capacity)`
entries (the total-writes counter is the spec's recommended resolution of its
section 9 open question).  The result lists the visited entries in
reverse-chronological order. -/
def scanBack (cap : Nat) (s : DTState) : List pypydtentry_s :=
  (List.range (min s.total_writes cap)).map
    (fun k => s.pypy_debug_tracebacks.getD ((s.pypydtcount + cap - (k + 1)) % cap) emptyEntry)

/-- One decoded logical element, mirroring the three recorder entry kinds. -/
inductive DecItem where
  | frame (p : pypydtpos_s) : DecItem
  | origin (t : Token) : DecItem
  | reraise (t : Token) : DecItem
deriving DecidableEq

/-- The decoded element corresponding to a recorder call. -/
def toItem : RecCall → DecItem
  | RecCall.frame p => DecItem.frame p
  | RecCall.origin t => DecItem.origin t
  | RecCall.reraise t => DecItem.reraise t

/-- Recover a recorder call from a decoded element (losslessness helper). -/
def itemToCall : DecItem → RecCall
  | DecItem.frame p => RecCall.frame p
  | DecItem.origin t => RecCall.origin t
  | DecItem.reraise t => RecCall.reraise t

/-- Modelled from the spec: how the decoder classifies a stored entry.
A `(NULL, NULL)` slot is a never-written slot and yields nothing; per the
header's buffer-interpretation comment, a non-`NULL` non-sentinel location is
a propagation frame (possibly also carrying a finally-block exception type,
which does not change its frame nature), `(NULL, &etype)` marks a raise and
`(RERAISE, &etype)` a re-raise.  The type-incorrect shape `(RERAISE, NULL)`
is never produced by any recorder operation and yields nothing. -/
def parseEntry : pypydtentry_s → Option DecItem
  | ⟨LocPtr.null, none⟩ => none
  | ⟨LocPtr.null, some t⟩ => some (DecItem.origin t)
  | ⟨LocPtr.sentinel, some t⟩ => some (DecItem.reraise t)
  | ⟨LocPtr.sentinel, none⟩ => none
  | ⟨LocPtr.valid p, _⟩ => some (DecItem.frame p)

/-- One logical segment reported by the decoder (spec section 4.2):
its exception identity (`none` for a trailing segment with no identity),
whether a matching `Origin` entry closed it (`false` means the origin is
unknown or overwritten, or the segment is the trailing remainder), and its
elements in reverse-chronological (scan) order. -/
structure Segment where
  token : Option Token
  hasOrigin : Bool
  items : List DecItem
deriving DecidableEq

/-- Modelled from the spec: the decoder's segment-building loop over the
reverse-chronological element list.  `acc` holds the current segment's
elements (most recently visited first), `cont` records the pending
continuation token opened by a `Reraise`.  Per spec section 4.2: a `Frame` is
attached to the current segment; a `Reraise` opens a continuation (subsequent
older entries are attributed to it until a matching `Origin` closes and links
the parts as one exception's full path); an `Origin` closes the current
segment; when the scan runs out, any remaining elements form a segment whose
origin is unknown/overwritten. -/
def segGo : List DecItem → List DecItem → Option Token → List Segment
  | [], acc, cont =>
      if acc.isEmpty then [] else [⟨cont, false, acc.reverse⟩]
  | DecItem.frame p :: rest, acc, cont =>
      segGo rest (DecItem.frame p :: acc) cont
  | DecItem.reraise t :: rest, acc, none =>
      segGo rest (DecItem.reraise t :: acc) (some t)
  | DecItem.reraise t :: rest, acc, some u =>
      segGo rest (DecItem.reraise t :: acc) (some u)
  | DecItem.origin t :: rest, acc, none =>
      ⟨some t, true, (DecItem.origin t :: acc).reverse⟩ :: segGo rest [] none
  | DecItem.origin t :: rest, acc, some u =>
      if t = u then ⟨some t, true, (DecItem.origin t :: acc).reverse⟩ :: segGo rest [] none
      else segGo rest (DecItem.origin t :: acc) (some u)

/-- Modelled from the spec: `decode()`, the read-only reconstruction of
logical segments from the ring store's current contents (spec section 4.2). -/
def decode (cap : Nat) (s : DTState) : List Segment :=
  segGo ((scanBack cap s).filterMap parseEntry) [] none

/-- All decoded elements of a segment list, in scan order (flattening). -/
def segItems (segs : List Segment) : List DecItem :=
  segs.foldr (fun sg r => sg.items ++ r) []

/-- Modelled from the spec: one rendered line per decoded element
(`routine:line` for frames; origin and re-raise boundaries rendered
distinctly, using the externally supplied display-name function `dn`). -/
def renderItem (dn : Token → String) : DecItem → String
  | DecItem.frame p => "  " ++ p.funcname ++ ":" ++ toString p.lineno
  | DecItem.origin t => "Exception " ++ dn t ++ " raised:"
  | DecItem.reraise t => "  [re-raised " ++ dn t ++ "]"

/-- Modelled from the spec: render one segment as text lines, in
chronological order, flagging unknown/overwritten origins. -/
def renderSegment (dn : Token → String) (sg : Segment) : List String :=
  (match sg.token, sg.hasOrigin with
   | some t, false => ["Continuation of " ++ dn t ++ " (origin unknown or overwritten):"]
   | _, _ => []) ++ sg.items.reverse.map (renderItem dn)

/-- Modelled from the spec: `render(segments)`, the human-readable multi-line
rendering of a decode result (spec section 4.2). -/
def render (dn : Token → String) (segs : List Segment) : List String :=
  segs.foldr (fun sg r => renderSegment dn sg ++ r) []

/-! ### Helper lemmas about the recorder -/

lemma recordCall_eq (cap : Nat) (s : DTState) (c : RecCall) :
    recordCall cap s c = PYPYDTSTORE cap (toEntry c).location (toEntry c).exctype s := by
  cases c <;> rfl

lemma recordCall_writes (cap : Nat) (s : DTState) (c : RecCall) :
    (recordCall cap s c).total_writes = s.total_writes + 1 := by
  cases c <;> rfl

lemma recordCall_buffer (cap : Nat) (s : DTState) (c : RecCall) :
    (recordCall cap s c).pypy_debug_tracebacks
      = s.pypy_debug_tracebacks.set s.pypydtcount (toEntry c) := by
  cases c <;> rfl

lemma recordCall_length (cap : Nat) (s : DTState) (c : RecCall) :
    (recordCall cap s c).pypy_debug_tracebacks.length = s.pypy_debug_tracebacks.length := by
  rw [recordCall_buffer, List.length_set]

lemma PYPYDTSTORE_count (k cap : Nat) (hcap : cap = 2 ^ k) (loc : LocPtr)
    (etype : Option Token) (s : DTState) :
    (PYPYDTSTORE cap loc etype s).pypydtcount = (s.pypydtcount + 1) % cap := by
  subst hcap
  show Nat.land (s.pypydtcount + 1) (2 ^ k - 1) = (s.pypydtcount + 1) % 2 ^ k
  exact Nat.and_pow_two_sub_one_eq_mod _ _

lemma recordCall_count (k cap : Nat) (hcap : cap = 2 ^ k) (s : DTState) (c : RecCall) :
    (recordCall cap s c).pypydtcount = (s.pypydtcount + 1) % cap := by
  rw [recordCall_eq]
  exact PYPYDTSTORE_count k cap hcap _ _ s

lemma runCalls_cons (cap : Nat) (s : DTState) (c : RecCall) (cs : List RecCall) :
    runCalls cap s (c :: cs) = runCalls cap (recordCall cap s c) cs := rfl

lemma runCalls_append (cap : Nat) (s : DTState) (l1 l2 : List RecCall) :
    runCalls cap s (l1 ++ l2) = runCalls cap (runCalls cap s l1) l2 := by
  simp [runCalls, List.foldl_append]

lemma runCalls_writes (cap : Nat) (s : DTState) (calls : List RecCall) :
    (runCalls cap s calls).total_writes = s.total_writes + calls.length := by
  induction calls generalizing s with
  | nil => rfl
  | cons c cs ih =>
    rw [runCalls_cons, ih, recordCall_writes]
    simp
    omega

lemma runCalls_length (cap : Nat) (s : DTState) (calls : List RecCall) :
    (runCalls cap s calls).pypy_debug_tracebacks.length
      = s.pypy_debug_tracebacks.length := by
  induction calls generalizing s with
  | nil => rfl
  | cons c cs ih => rw [runCalls_cons, ih, recordCall_length]

lemma runCalls_count (k cap : Nat) (hcap : cap = 2 ^ k) (calls : List RecCall)
    (s : DTState) (m : Nat) (hs : s.pypydtcount = m % cap) :
    (runCalls cap s calls).pypydtcount = (m + calls.length) % cap := by
  induction calls generalizing s m with
  | nil => simpa using hs
  | cons c cs ih =>
    rw [runCalls_cons]
    have h1 : (recordCall cap s c).pypydtcount = (m + 1) % cap := by
      rw [recordCall_count k cap hcap, hs, Nat.mod_add_mod]
    rw [ih (recordCall cap s c) (m + 1) h1]
    congr 1
    simp
    omega

lemma freshState_count (cap : Nat) : (freshState cap).pypydtcount = 0 % cap := by
  simp [freshState]

lemma runCalls_fresh_count (k cap : Nat) (hcap : cap = 2 ^ k) (calls : List RecCall) :
    (runCalls cap (freshState cap) calls).pypydtcount = calls.length % cap := by
  simpa using runCalls_count k cap hcap calls (freshState cap) 0 (freshState_count cap)

lemma runCalls_fresh_writes (cap : Nat) (calls : List RecCall) :
    (runCalls cap (freshState cap) calls).total_writes = calls.length := by
  simpa [freshState] using runCalls_writes cap (freshState cap) calls

lemma runCalls_fresh_length (cap : Nat) (calls : List RecCall) :
    (runCalls cap (freshState cap) calls).pypy_debug_tracebacks.length = cap := by
  simpa [freshState] using runCalls_length cap (freshState cap) calls

/-- Distinct write indices within one capacity window land in distinct slots. -/
lemma mod_ne_of_window (cap i m : Nat) (h1 : i < m) (h2 : m < i + cap) :
    i % cap ≠ m % cap := by
  intro heq
  have hdvd : cap ∣ m - i := (Nat.modEq_iff_dvd' (Nat.le_of_lt h1)).mp heq
  have hle : cap ≤ m - i := Nat.le_of_dvd (by omega) hdvd
  omega

/-- After running `calls` from a fresh store, each slot in the last-`cap`
window still holds the entry written there: slot `i % cap` holds the entry of
call `i` whenever `i` is among the final `cap` call indices. -/
lemma runCalls_getD (k cap : Nat) (hcap : cap = 2 ^ k) :
    ∀ (calls : List RecCall) (i : Nat), i < calls.length → calls.length ≤ i + cap →
      (runCalls cap (freshState cap) calls).pypy_debug_tracebacks.getD (i % cap) emptyEntry
        = toEntry (calls.getD i (RecCall.origin 0)) := by
  have hpos : 0 < cap := hcap ▸ Nat.two_pow_pos k
  intro calls
  induction calls using List.reverseRecOn with
  | nil => intro i h1 _; simp at h1
  | append_singleton cs c ih =>
    intro i h1 h2
    rw [runCalls_append]
    rw [show runCalls cap (runCalls cap (freshState cap) cs) [c]
          = recordCall cap (runCalls cap (freshState cap) cs) c from rfl]
    rw [recordCall_buffer, runCalls_fresh_count k cap hcap]
    rw [List.length_append] at h1 h2
    simp only [List.length_cons, List.length_nil] at h1 h2
    rcases Nat.lt_or_ge i cs.length with hlt | hge
    · have hne : cs.length % cap ≠ i % cap :=
        Ne.symm (mod_ne_of_window cap i cs.length hlt (by omega))
      rw [List.getD_eq_getElem?_getD, List.getElem?_set_ne hne,
        ← List.getD_eq_getElem?_getD, ih i hlt (by omega)]
      congr 1
      rw [List.getD_eq_getElem?_getD, List.getD_eq_getElem?_getD,
        List.getElem?_append_left hlt]
    · have hieq : i = cs.length := by omega
      subst hieq
      rw [List.getD_eq_getElem?_getD,
        List.getElem?_set_self (by rw [runCalls_fresh_length]; exact Nat.mod_lt _ hpos)]
      rw [List.getD_eq_getElem?_getD, List.getElem?_concat_length]
      rfl

/-! ### Characterizing the decoder's backward scan -/

/-- The backward scan of a store built by `calls` from fresh returns exactly
the entries of the most recent `min (calls.length) cap` calls, newest
first. -/
lemma scanBack_runCalls (k cap : Nat) (hcap : cap = 2 ^ k) (calls : List RecCall) :
    scanBack cap (runCalls cap (freshState cap) calls)
      = ((calls.drop (calls.length - min calls.length cap)).map toEntry).reverse := by
  have hpos : 0 < cap := hcap ▸ Nat.two_pow_pos k
  set M := calls.length with hM
  have hminM : min M cap ≤ M := Nat.min_le_left _ _
  have hminc : min M cap ≤ cap := Nat.min_le_right _ _
  have hlen : ((calls.drop (M - min M cap)).map toEntry).length = min M cap := by
    simp
    omega
  apply List.ext_getElem?
  intro n
  rcases Nat.lt_or_ge n (min M cap) with hn | hn
  · have harith : ((M % cap + cap - (n + 1)) % cap) = (M - (n + 1)) % cap := by
      have hq := Nat.div_add_mod M cap
      generalize hqq : cap * (M / cap) = t at hq
      have hrlt : M % cap < cap := Nat.mod_lt _ hpos
      have key : (M % cap + cap - (n + 1)) + cap * (M / cap) = (M - (n + 1)) + cap := by
        rw [hqq]
        omega
      calc (M % cap + cap - (n + 1)) % cap
          = ((M % cap + cap - (n + 1)) + cap * (M / cap)) % cap :=
            (Nat.add_mul_mod_self_left _ _ _).symm
        _ = ((M - (n + 1)) + cap) % cap := by rw [key]
        _ = (M - (n + 1)) % cap := Nat.add_mod_right _ _
    have hL : (scanBack cap (runCalls cap (freshState cap) calls))[n]?
        = some (toEntry (calls.getD (M - (n + 1)) (RecCall.origin 0))) := by
      simp only [scanBack, runCalls_fresh_writes, runCalls_fresh_count k cap hcap, ← hM]
      rw [List.getElem?_map, List.getElem?_range hn, Option.map_some']
      rw [harith, runCalls_getD k cap hcap calls (M - (n + 1)) (by omega) (by omega)]
    have hR : (((calls.drop (M - min M cap)).map toEntry).reverse)[n]?
        = some (toEntry (calls.getD (M - (n + 1)) (RecCall.origin 0))) := by
      rw [List.getElem?_reverse (by rw [hlen]; exact hn), hlen]
      rw [List.getElem?_map, List.getElem?_drop]
      have hidx : M - min M cap + (min M cap - 1 - n) = M - (n + 1) := by omega
      rw [hidx, List.getElem?_eq_getElem (by omega), Option.map_some']
      rw [List.getD_eq_getElem?_getD, List.getElem?_eq_getElem (by omega)]
      rfl
    rw [hL, hR]
  · have h1 : (scanBack cap (runCalls cap (freshState cap) calls)).length ≤ n := by
      simp only [scanBack, List.length_map, List.length_range, runCalls_fresh_writes, ← hM]
      omega
    have h2 : (((calls.drop (M - min M cap)).map toEntry).reverse).length ≤ n := by
      rw [List.length_reverse, hlen]
      omega
    rw [List.getElem?_eq_none h1, List.getElem?_eq_none h2]

lemma segItems_nil : segItems [] = [] := rfl

lemma segItems_cons (sg : Segment) (segs : List Segment) :
    segItems (sg :: segs) = sg.items ++ segItems segs := rfl

/-- Every visited element lands in exactly one reported segment: flattening
the segment-building loop's output returns its input. -/
lemma segItems_segGo : ∀ (l acc : List DecItem) (cont : Option Token),
    segItems (segGo l acc cont) = acc.reverse ++ l := by
  intro l
  induction l with
  | nil =>
    intro acc cont
    by_cases h : acc.isEmpty
    · rw [List.isEmpty_iff] at h
      subst h
      simp [segGo, segItems_nil]
    · simp [segGo, h, segItems_cons, segItems_nil]
  | cons it rest ih =>
    intro acc cont
    cases it with
    | frame p => simp [segGo, ih]
    | reraise t =>
      cases cont with
      | none => simp [segGo, ih]
      | some u => simp [segGo, ih]
    | origin t =>
      cases cont with
      | none => simp [segGo, segItems_cons, ih]
      | some u =>
        by_cases h : t = u <;> simp [segGo, h, segItems_cons, ih]

lemma parse_toEntry (c : RecCall) : parseEntry (toEntry c) = some (toItem c) := by
  cases c <;> rfl

/-- The element list the decoder parses out of the scan of a store built by
`calls` from fresh: the most recent `min (calls.length) cap` calls, newest
first. -/
lemma parsed_scan_runCalls (k cap : Nat) (hcap : cap = 2 ^ k) (calls : List RecCall) :
    (scanBack cap (runCalls cap (freshState cap) calls)).filterMap parseEntry
      = ((calls.drop (calls.length - min calls.length cap)).map toItem).reverse := by
  rw [scanBack_runCalls k cap hcap calls]
  rw [List.filterMap_reverse, List.filterMap_map]
  have hfm : parseEntry ∘ toEntry = some ∘ toItem := by
    funext c
    exact parse_toEntry c
  rw [hfm, List.filterMap_eq_map]

/-- The decoded element list of a store built by `calls` from fresh:
exactly the most recent `min (calls.length) cap` calls, newest first. -/
lemma segItems_decode_runCalls (k cap : Nat) (hcap : cap = 2 ^ k) (calls : List RecCall) :
    segItems (decode cap (runCalls cap (freshState cap) calls))
      = ((calls.drop (calls.length - min calls.length cap)).map toItem).reverse := by
  rw [decode, segItems_segGo, parsed_scan_runCalls k cap hcap calls]
  simp

/-- When the scan contains no origin element at all, everything ends up in a
single reported segment whose origin is unknown. -/
lemma segGo_no_origin (x : DecItem) :
    ∀ (l acc : List DecItem) (cont : Option Token),
      (∀ t : Token, DecItem.origin t ∉ l) → (x ∈ l ∨ x ∈ acc) →
      ∃ sg ∈ segGo l acc cont, sg.hasOrigin = false ∧ x ∈ sg.items := by
  intro l
  induction l with
  | nil =>
    intro acc cont _ hx
    rcases hx with hx | hx
    · simp at hx
    · have hne : acc.isEmpty = false := by
        rcases acc with _ | ⟨a, as⟩
        · simp at hx
        · rfl
      refine ⟨⟨cont, false, acc.reverse⟩, ?_, rfl, ?_⟩
      · simp [segGo, hne]
      · simpa using hx
  | cons it rest ih =>
    intro acc cont hno hx
    have hno' : ∀ t : Token, DecItem.origin t ∉ rest :=
      fun t ht => hno t (List.mem_cons_of_mem _ ht)
    cases it with
    | frame p =>
      have hx' : x ∈ rest ∨ x ∈ (DecItem.frame p :: acc) := by
        rcases hx with hx | hx
        · rcases List.mem_cons.mp hx with h | h
          · right
            exact h ▸ List.mem_cons_self _ _
          · left
            exact h
        · right
          exact List.mem_cons_of_mem _ hx
      simpa [segGo] using ih (DecItem.frame p :: acc) cont hno' hx'
    | reraise t =>
      have hx' : x ∈ rest ∨ x ∈ (DecItem.reraise t :: acc) := by
        rcases hx with hx | hx
        · rcases List.mem_cons.mp hx with h | h
          · right
            exact h ▸ List.mem_cons_self _ _
          · left
            exact h
        · right
          exact List.mem_cons_of_mem _ hx
      cases cont with
      | none => simpa [segGo] using ih (DecItem.reraise t :: acc) (some t) hno' hx'
      | some u => simpa [segGo] using ih (DecItem.reraise t :: acc) (some u) hno' hx'
    | origin t => exact absurd (List.mem_cons_self _ _) (hno t)

/-! ### Capacity validation (modelled from the spec) -/

/-- Is `n` a power of two?  The classic executable check: `n` is non-zero
and clearing its lowest set bit (`n & (n-1)`) leaves nothing. -/
def isPow2 (n : Nat) : Bool :=
  decide (n ≠ 0) && (Nat.land n (n - 1) == 0)

lemma land_two_pow_pred (m : Nat) : Nat.land (2 ^ m) (2 ^ m - 1) = 0 := by
  apply Nat.eq_of_testBit_eq
  intro i
  show Nat.testBit (2 ^ m &&& (2 ^ m - 1)) i = Nat.testBit 0 i
  rw [Nat.testBit_and, Nat.testBit_two_pow, Nat.testBit_two_pow_sub_one, Nat.zero_testBit]
  by_cases h : m = i
  · subst h
    simp
  · simp [h]

lemma isPow2_iff : ∀ n : Nat, isPow2 n = true ↔ ∃ m : Nat, n = 2 ^ m := by
  intro n
  induction n using Nat.strong_induction_on with
  | _ n ih =>
    match n, ih with
    | 0, _ =>
      constructor
      · intro h
        simp [isPow2] at h
      · rintro ⟨m, hm⟩
        have := Nat.two_pow_pos m
        omega
    | 1, _ =>
      constructor
      · intro _
        exact ⟨0, by simp⟩
      · intro _
        decide
    | n + 2, ih =>
      have hstep : Nat.land (n + 2) (n + 1) / 2 = Nat.land ((n + 2) / 2) ((n + 1) / 2) :=
        Nat.and_div_two
      constructor
      · intro h
        have h' : Nat.land (n + 2) (n + 1) = 0 := by
          have := (Bool.and_eq_true _ _).mp h
          simpa using this.2
        rcases Nat.even_or_odd (n + 2) with ⟨c, hc⟩ | ⟨c, hc⟩
        · have hc1 : (n + 1) / 2 = (n + 2) / 2 - 1 := by omega
          have hz : Nat.land ((n + 2) / 2) ((n + 2) / 2 - 1) = 0 := by
            rw [← hc1, ← hstep, h']
          have hne : (n + 2) / 2 ≠ 0 := by omega
          have hp2 : isPow2 ((n + 2) / 2) = true := by
            unfold isPow2
            rw [Bool.and_eq_true, beq_iff_eq]
            exact ⟨decide_eq_true hne, hz⟩
          obtain ⟨j, hj⟩ := (ih ((n + 2) / 2) (by omega)).mp hp2
          refine ⟨j + 1, ?_⟩
          have heq : n + 2 = 2 * ((n + 2) / 2) := by omega
          rw [heq, hj, Nat.pow_succ]
          ring
        · exfalso
          have hcc : (n + 2) / 2 = (n + 1) / 2 := by omega
          have hself : Nat.land (n + 2) (n + 1) / 2 = (n + 2) / 2 := by
            rw [hstep, ← hcc]
            exact Nat.and_self _
          rw [h', Nat.zero_div] at hself
          omega
      · rintro ⟨m, hm⟩
        have hland : Nat.land (n + 2) (n + 1) = 0 := by
          rw [show n + 1 = n + 2 - 1 from rfl, hm]
          exact land_two_pow_pred m
        simp [isPow2, hland]

/-- Modelled from the spec: store initialization with capacity validation
(spec sections 6 and 7: a capacity that is not a power of two is rejected as
a configuration error; the C header has no runtime initialization and only
documents the constraint in the comment `/* a power of two */`). -/
def initStore (cap : Nat) : Except String DTState :=
  if isPow2 cap then Except.ok (freshState cap)
  else Except.error "configuration error: capacity must be a power of two"

/-- Did initialization succeed? -/
def initSucceeds (cap : Nat) : Bool :=
  match initStore cap with
  | Except.ok _ => true
  | Except.error _ => false

/-! ### Concrete scenario data (the header's documented example) -/

def pos_h5 : pypydtpos_s := ⟨"example.c", "h", 5⟩

def pos_g12 : pypydtpos_s := ⟨"example.c", "g", 12⟩

def pos_f17 : pypydtpos_s := ⟨"example.c", "f", 17⟩

def pos_entry25 : pypydtpos_s := ⟨"example.c", "entry", 25⟩

/-- The buffer content documented in the header's interpretation comment:
a `KeyError` (token `1`) raised, at `h:5`, called from `g:12`, called from
`f:17` where a finally block starts (that entry carries both a location and
the exception type), eventually re-raised, called from `entry:25`. -/
def documentedBuffer : List pypydtentry_s :=
  [⟨LocPtr.null, some 1⟩,
   ⟨LocPtr.valid pos_h5, none⟩,
   ⟨LocPtr.valid pos_g12, none⟩,
   ⟨LocPtr.valid pos_f17, some 1⟩,
   ⟨PYPYDTPOS_RERAISE, some 1⟩,
   ⟨LocPtr.valid pos_entry25, none⟩]

/-- The canonical re-raise scenario as a recorder-call sequence in the entry
order documented by the header (origin entry first, then the raise-site
frame). -/
def canonicalCalls : List RecCall :=
  [RecCall.origin 1, RecCall.frame pos_h5, RecCall.frame pos_g12,
   RecCall.frame pos_f17, RecCall.reraise 1, RecCall.frame pos_entry25]

/-- The same six recorder calls in the order stated by the spec's re-raise
test scenario (`Frame(h:5)` recorded before `Origin(K)`). -/
def specOrderCalls : List RecCall :=
  [RecCall.frame pos_h5, RecCall.origin 1, RecCall.frame pos_g12,
   RecCall.frame pos_f17, RecCall.reraise 1, RecCall.frame pos_entry25]

/-! ### Entry shapes (spec's tagged variants vs the stored representation) -/

/-- Does the entry have the spec's pure `Frame(location)` shape (a real
location and no exception type)? -/
def isPureFrame (e : pypydtentry_s) : Bool :=
  match e.location, e.exctype with
  | LocPtr.valid _, none => true
  | _, _ => false

/-- Does the entry have the spec's pure `Origin(exception_token)` shape? -/
def isPureOrigin (e : pypydtentry_s) : Bool :=
  match e.location, e.exctype with
  | LocPtr.null, some _ => true
  | _, _ => false

/-- Does the entry have the spec's pure `Reraise(exception_token)` shape? -/
def isPureReraise (e : pypydtentry_s) : Bool :=
  match e.location, e.exctype with
  | LocPtr.sentinel, some _ => true
  | _, _ => false

/-! ### Word-level model of the pointer fields (for the sentinel claim)

The `location` field is a `struct pypydtpos_s *` and the `exctype` field a
`void *`.  On a 64-bit machine `NULL` is the word 0, the sentinel
`PYPYDTPOS_RERAISE = (struct pypydtpos_s *) -1` is the all-ones word, and a
legitimate pointer is the address of an allocated object that fits below the
top of the address space. -/

/-- The numeric value of the `NULL` pointer. -/
def NULL_WORD : Nat := 0

/-- The numeric value of `PYPYDTPOS_RERAISE` on a 64-bit machine:
`(struct pypydtpos_s *) -1` is the all-ones word. -/
def PYPYDTPOS_RERAISE_WORD : Nat := 2 ^ 64 - 1

/-- Byte size of `struct pypydtpos_s`: two 8-byte `const char *` fields and
an `int`, padded to 8-byte alignment on an LP64 machine. -/
def sizeof_pypydtpos_s : Nat := 24

/-- `a` is the address of a legitimately allocated `pypydtpos_s`: non-null,
and the whole object fits in the address space. -/
def validLocationWord (a : Nat) : Bool :=
  decide (0 < a) && decide (a + sizeof_pypydtpos_s ≤ 2 ^ 64)

/-- `a` is a legitimate exception-type identity: the non-null address of an
object at least one pointer (8 bytes) big. -/
def validTokenWord (a : Nat) : Bool :=
  decide (0 < a) && decide (a + 8 ≤ 2 ^ 64)

/-- The kind of a stored entry, word-level classification. -/
inductive EntryKind where
  | emptyK : EntryKind
  | originK : EntryKind
  | frameK : EntryKind
  | reraiseK : EntryKind
deriving DecidableEq

/-- Classify a stored `(location, exctype)` word pair, the way the decoder
must: the sentinel means re-raise, a null location with an exception type
means origin, a null pair means a never-written slot, anything else is a
frame. -/
def kindOfWords (l e : Nat) : EntryKind :=
  if l = PYPYDTPOS_RERAISE_WORD then EntryKind.reraiseK
  else if l = NULL_WORD then
    (if e = NULL_WORD then EntryKind.emptyK else EntryKind.originK)
  else EntryKind.frameK

/-! ### The claims -/

/-- C1: for every sequence of `N ≤ capacity` recorder calls recorded into a
freshly initialized store, `decode()` returns exactly `N` logical elements,
in reverse-chronological order, losslessly matching the recorded sequence
(no missing, extra, or garbage elements: mapping the decoded elements back
recovers the call sequence exactly). -/
theorem C1_decode_lossless_below_capacity (k cap : Nat) (hcap : cap = 2 ^ k)
    (calls : List RecCall) (hN : calls.length ≤ cap) :
    segItems (decode cap (runCalls cap (freshState cap) calls))
        = (calls.map toItem).reverse
    ∧ (segItems (decode cap (runCalls cap (freshState cap) calls))).length = calls.length
    ∧ (segItems (decode cap (runCalls cap (freshState cap) calls))).reverse.map itemToCall
        = calls := by
  have h1 := segItems_decode_runCalls k cap hcap calls
  rw [Nat.min_eq_left hN, Nat.sub_self, List.drop_zero] at h1
  refine ⟨h1, ?_, ?_⟩
  · rw [h1, List.length_reverse, List.length_map]
  · rw [h1, List.reverse_reverse, List.map_map]
    have hid : itemToCall ∘ toItem = id := funext fun c => by cases c <;> rfl
    rw [hid, List.map_id]

/-- Witness for C1: capacity `8 = 2^3`, the six canonical calls. -/
theorem C1_witness :
    segItems (decode 8 (runCalls 8 (freshState 8) canonicalCalls))
        = (canonicalCalls.map toItem).reverse
    ∧ (segItems (decode 8 (runCalls 8 (freshState 8) canonicalCalls))).length
        = canonicalCalls.length
    ∧ (segItems (decode 8 (runCalls 8 (freshState 8) canonicalCalls))).reverse.map itemToCall
        = canonicalCalls :=
  C1_decode_lossless_below_capacity 3 8 (by decide) canonicalCalls (by decide)

/-- C2: for every sequence of `M > capacity` recorder calls recorded into a
freshly initialized store, `decode()` returns exactly the elements of the
most recent `capacity` calls (newest first), the output length is exactly
`capacity`, every reported element is one of the most recent `capacity`
calls, and in the `capacity + 1` wraparound test the overwritten first entry
(when not re-recorded later) does not appear in the output. -/
theorem C2_decode_window_after_wrap (k cap : Nat) (hcap : cap = 2 ^ k)
    (calls : List RecCall) (hM : cap < calls.length) :
    segItems (decode cap (runCalls cap (freshState cap) calls))
        = ((calls.drop (calls.length - cap)).map toItem).reverse
    ∧ (segItems (decode cap (runCalls cap (freshState cap) calls))).length = cap
    ∧ (∀ it : DecItem,
        it ∈ segItems (decode cap (runCalls cap (freshState cap) calls)) →
        it ∈ (calls.drop (calls.length - cap)).map toItem)
    ∧ (calls.length = cap + 1 →
        toItem (calls.getD 0 (RecCall.origin 0)) ∉ (calls.drop 1).map toItem →
        toItem (calls.getD 0 (RecCall.origin 0))
          ∉ segItems (decode cap (runCalls cap (freshState cap) calls))) := by
  have h1 := segItems_decode_runCalls k cap hcap calls
  rw [Nat.min_eq_right (Nat.le_of_lt hM)] at h1
  refine ⟨h1, ?_, ?_, ?_⟩
  · rw [h1, List.length_reverse, List.length_map, List.length_drop]
    omega
  · intro it hit
    rw [h1, List.mem_reverse] at hit
    exact hit
  · intro hlen hnot hmem
    rw [h1, List.mem_reverse, show calls.length - cap = 1 by omega] at hmem
    exact hnot hmem

/-- Witness for C2: capacity `2 = 2^1`, three distinct calls. -/
theorem C2_witness :
    segItems (decode 2 (runCalls 2 (freshState 2)
        [RecCall.origin 1, RecCall.frame pos_h5, RecCall.reraise 2]))
        = (([RecCall.origin 1, RecCall.frame pos_h5, RecCall.reraise 2].drop (3 - 2)).map
            toItem).reverse
    ∧ (segItems (decode 2 (runCalls 2 (freshState 2)
        [RecCall.origin 1, RecCall.frame pos_h5, RecCall.reraise 2]))).length = 2
    ∧ (∀ it : DecItem,
        it ∈ segItems (decode 2 (runCalls 2 (freshState 2)
          [RecCall.origin 1, RecCall.frame pos_h5, RecCall.reraise 2])) →
        it ∈ ([RecCall.origin 1, RecCall.frame pos_h5, RecCall.reraise 2].drop (3 - 2)).map
          toItem)
    ∧ ((3 : Nat) = 2 + 1 →
        toItem ([RecCall.origin 1, RecCall.frame pos_h5, RecCall.reraise 2].getD 0
            (RecCall.origin 0))
          ∉ ([RecCall.origin 1, RecCall.frame pos_h5, RecCall.reraise 2].drop 1).map toItem →
        toItem ([RecCall.origin 1, RecCall.frame pos_h5, RecCall.reraise 2].getD 0
            (RecCall.origin 0))
          ∉ segItems (decode 2 (runCalls 2 (freshState 2)
            [RecCall.origin 1, RecCall.frame pos_h5, RecCall.reraise 2]))) :=
  C2_decode_window_after_wrap 1 2 (by decide)
    [RecCall.origin 1, RecCall.frame pos_h5, RecCall.reraise 2] (by decide)

/-- C3: initializing the store succeeds exactly for power-of-two capacities:
128 and 8192 are accepted, 100 and 0 are rejected as configuration errors,
and both build-time values of `PYPY_DEBUG_TRACEBACK_DEPTH` satisfy the
documented power-of-two constraint. -/
theorem C3_capacity_power_of_two_validation :
    initSucceeds 128 = true ∧ initSucceeds 8192 = true
    ∧ initSucceeds 100 = false ∧ initSucceeds 0 = false
    ∧ (∀ c : Nat, initSucceeds c = true ↔ ∃ m : Nat, c = 2 ^ m)
    ∧ isPow2 (PYPY_DEBUG_TRACEBACK_DEPTH true) = true
    ∧ isPow2 (PYPY_DEBUG_TRACEBACK_DEPTH false) = true := by
  have hgen : ∀ c : Nat, initSucceeds c = true ↔ ∃ m : Nat, c = 2 ^ m := by
    intro c
    rw [← isPow2_iff c]
    rcases Bool.eq_false_or_eq_true (isPow2 c) with h | h <;>
      simp [initSucceeds, initStore, h]
  exact ⟨by decide, by decide, by decide, by decide, hgen, by decide, by decide⟩

/-- C4 counterexample: recording the six calls in the exact order the claim
states (`Frame(h:5)` before `Origin(K)`) does not produce a single
continuous segment whose path is `h:5 → g:12 → f:17 → [re-raised] →
entry:25`; the decode output has two segments, with `h:5` stranded outside
the exception's segment. -/
theorem C4_spec_order_refuted :
    decode 128 (runCalls 128 (freshState 128) specOrderCalls)
        ≠ [⟨some 1, true,
            [DecItem.frame pos_entry25, DecItem.reraise 1, DecItem.frame pos_f17,
             DecItem.frame pos_g12, DecItem.frame pos_h5, DecItem.origin 1]⟩]
    ∧ (decode 128 (runCalls 128 (freshState 128) specOrderCalls)).length = 2 := by
  decide

/-- C4 (amended): with the entry order documented in the header's comment
(origin entry first, then the raise-site frame `h:5`), `decode()` reports a
single continuous exception segment for token `K = 1`, closed by its origin,
whose chronological path is
`origin → h:5 → g:12 → f:17 → [re-raised] → entry:25`, correlating the
re-raise with the origin by token equality. -/
theorem C4_canonical_reraise_path :
    decode 128 (runCalls 128 (freshState 128) canonicalCalls)
      = [⟨some 1, true,
          [DecItem.frame pos_entry25, DecItem.reraise 1, DecItem.frame pos_f17,
           DecItem.frame pos_g12, DecItem.frame pos_h5, DecItem.origin 1]⟩] := by
  decide

/-- C5: every append writes exactly one entry at the current cursor slot,
advances the cursor by one modulo the capacity, the cursor always lands back
in `[0, capacity)`, and once at least `capacity` calls have been recorded
the cursor points at the slot holding the oldest surviving entry (the next
one to be overwritten). -/
theorem C5_append_cursor_invariants (k cap : Nat) (hcap : cap = 2 ^ k)
    (s : DTState) (loc : LocPtr) (etype : Option Token)
    (calls : List RecCall) (hlen : cap ≤ calls.length) :
    (PYPYDTSTORE cap loc etype s).pypy_debug_tracebacks
        = s.pypy_debug_tracebacks.set s.pypydtcount ⟨loc, etype⟩
    ∧ (PYPYDTSTORE cap loc etype s).pypydtcount = (s.pypydtcount + 1) % cap
    ∧ (PYPYDTSTORE cap loc etype s).pypydtcount < cap
    ∧ (runCalls cap (freshState cap) calls).pypy_debug_tracebacks.getD
          (runCalls cap (freshState cap) calls).pypydtcount emptyEntry
        = toEntry (calls.getD (calls.length - cap) (RecCall.origin 0)) := by
  have hpos : 0 < cap := hcap ▸ Nat.two_pow_pos k
  refine ⟨rfl, PYPYDTSTORE_count k cap hcap loc etype s, ?_, ?_⟩
  · rw [PYPYDTSTORE_count k cap hcap]
    exact Nat.mod_lt _ hpos
  · rw [runCalls_fresh_count k cap hcap]
    have hmod : calls.length % cap = (calls.length - cap) % cap := by
      conv_lhs => rw [show calls.length = (calls.length - cap) + cap by omega]
      rw [Nat.add_mod_right]
    rw [hmod]
    exact runCalls_getD k cap hcap calls (calls.length - cap) (by omega) (by omega)

/-- Witness for C5: capacity `2 = 2^1`, a fresh store, two recorded calls. -/
theorem C5_witness :
    (PYPYDTSTORE 2 LocPtr.null none (freshState 2)).pypy_debug_tracebacks
        = (freshState 2).pypy_debug_tracebacks.set (freshState 2).pypydtcount
            ⟨LocPtr.null, none⟩
    ∧ (PYPYDTSTORE 2 LocPtr.null none (freshState 2)).pypydtcount
        = ((freshState 2).pypydtcount + 1) % 2
    ∧ (PYPYDTSTORE 2 LocPtr.null none (freshState 2)).pypydtcount < 2
    ∧ (runCalls 2 (freshState 2) [RecCall.origin 5, RecCall.origin 6]).pypy_debug_tracebacks.getD
          (runCalls 2 (freshState 2) [RecCall.origin 5, RecCall.origin 6]).pypydtcount
          emptyEntry
        = toEntry ([RecCall.origin 5, RecCall.origin 6].getD (2 - 2) (RecCall.origin 0)) :=
  C5_append_cursor_invariants 1 2 (by decide) (freshState 2) LocPtr.null none
    [RecCall.origin 5, RecCall.origin 6] (by decide)

/-- C6 counterexample: the store recorded from
`[Origin(1), Reraise(2), Reraise(1)]` contains a `Reraise(2)` entry whose
backward scan finds no `Origin(2)`, yet `decode()` reports no segment with
unknown/overwritten origin at all: the lone reported segment is closed by
`Origin(1)`, because the `Reraise(2)` entry was attributed to the pending
continuation of token 1. -/
theorem C6_nested_reraise_refuted :
    decode 4 (runCalls 4 (freshState 4)
        [RecCall.origin 1, RecCall.reraise 2, RecCall.reraise 1])
      = [⟨some 1, true, [DecItem.reraise 1, DecItem.reraise 2, DecItem.origin 1]⟩]
    ∧ ((decode 4 (runCalls 4 (freshState 4)
        [RecCall.origin 1, RecCall.reraise 2, RecCall.reraise 1])).all
          (fun sg => sg.hasOrigin)) = true := by
  decide

/-- C6 (amended): for every store state built by recording any number of
calls into a fresh store, if the surviving window (the most recent
`min(M, capacity)` calls, the ones the backward scan visits) contains a
`Reraise(tok)` entry and no surviving `Origin` entry at all (never recorded,
or all overwritten on wraparound), then `decode()` still returns normally
and reports that re-raise inside a segment with unknown/overwritten
origin. -/
theorem C6_unmatched_reraise_degrades (k cap : Nat) (hcap : cap = 2 ^ k)
    (calls : List RecCall) (tok : Token)
    (hr : RecCall.reraise tok ∈ calls.drop (calls.length - min calls.length cap))
    (hno : ∀ t : Token,
      RecCall.origin t ∉ calls.drop (calls.length - min calls.length cap)) :
    ∃ sg ∈ decode cap (runCalls cap (freshState cap) calls),
      sg.hasOrigin = false ∧ DecItem.reraise tok ∈ sg.items := by
  rw [decode, parsed_scan_runCalls k cap hcap calls]
  refine segGo_no_origin (DecItem.reraise tok)
    (((calls.drop (calls.length - min calls.length cap)).map toItem).reverse) [] none
    ?_ (Or.inl ?_)
  · intro t ht
    rw [List.mem_reverse] at ht
    obtain ⟨c, hc, hct⟩ := List.mem_map.mp ht
    cases c with
    | frame p => simp [toItem] at hct
    | origin u =>
      have hu : u = t := by simpa [toItem] using hct
      exact hno t (hu ▸ hc)
    | reraise u => simp [toItem] at hct
  · rw [List.mem_reverse]
    exact List.mem_map_of_mem toItem hr

/-- Witness for C6 (amended): capacity `2 = 2^1` with three calls, so the
store has wrapped and the `Origin(3)` recorded first was overwritten; the
surviving window holds only the frame and the unmatched re-raise. -/
theorem C6_witness :
    ∃ sg ∈ decode 2 (runCalls 2 (freshState 2)
        [RecCall.origin 3, RecCall.frame pos_h5, RecCall.reraise 7]),
      sg.hasOrigin = false ∧ DecItem.reraise 7 ∈ sg.items :=
  C6_unmatched_reraise_degrades 1 2 (by decide)
    [RecCall.origin 3, RecCall.frame pos_h5, RecCall.reraise 7] 7 (by decide)
    (by intro t ht; simp at ht)

/-- C7: on a freshly initialized, never-written store, `decode()` yields the
empty segment sequence and `render()` produces zero lines, for every
capacity and every display-name function. -/
theorem C7_empty_store_decode_render (cap : Nat) (dn : Token → String) :
    decode cap (freshState cap) = [] ∧ render dn (decode cap (freshState cap)) = [] := by
  have h : decode cap (freshState cap) = [] := by
    rw [decode]
    have hscan : scanBack cap (freshState cap) = [] := by
      simp [scanBack, freshState]
    rw [hscan]
    rfl
  exact ⟨h, by rw [h]; rfl⟩

/-- C8: the re-raise sentinel word (`(struct pypydtpos_s *) -1`, the
all-ones word) differs from `NULL` and from the address of every
legitimately allocated location record; a legitimate exception token differs
from `NULL` ("no exception") and from the sentinel word; consequently the
kind of every stored entry is unambiguously recovered by the word-level
classifier, and no legitimate entry collides with the re-raise marker. -/
theorem C8_sentinel_distinguishable (a t e : Nat)
    (ha : validLocationWord a = true) (ht : validTokenWord t = true) :
    PYPYDTPOS_RERAISE_WORD ≠ NULL_WORD
    ∧ a ≠ PYPYDTPOS_RERAISE_WORD ∧ a ≠ NULL_WORD
    ∧ t ≠ NULL_WORD ∧ t ≠ PYPYDTPOS_RERAISE_WORD
    ∧ kindOfWords a e = EntryKind.frameK
    ∧ kindOfWords NULL_WORD t = EntryKind.originK
    ∧ kindOfWords PYPYDTPOS_RERAISE_WORD e = EntryKind.reraiseK
    ∧ kindOfWords NULL_WORD NULL_WORD = EntryKind.emptyK := by
  have hW : (2 : Nat) ^ 64 = 18446744073709551616 := by norm_num
  have ha' : 0 < a ∧ a + 24 ≤ 18446744073709551616 := by
    have h0 := ha
    simp only [validLocationWord, sizeof_pypydtpos_s, Bool.and_eq_true,
      decide_eq_true_eq, hW] at h0
    exact h0
  have ht' : 0 < t ∧ t + 8 ≤ 18446744073709551616 := by
    have h0 := ht
    simp only [validTokenWord, Bool.and_eq_true, decide_eq_true_eq, hW] at h0
    exact h0
  have hPN : PYPYDTPOS_RERAISE_WORD ≠ NULL_WORD := by
    simp only [PYPYDTPOS_RERAISE_WORD, NULL_WORD, hW]
    omega
  have hNP : NULL_WORD ≠ PYPYDTPOS_RERAISE_WORD := Ne.symm hPN
  have hax : a ≠ PYPYDTPOS_RERAISE_WORD := by
    simp only [PYPYDTPOS_RERAISE_WORD, hW]
    omega
  have ha0 : a ≠ NULL_WORD := by
    simp only [NULL_WORD]
    omega
  have ht0 : t ≠ NULL_WORD := by
    simp only [NULL_WORD]
    omega
  have htx : t ≠ PYPYDTPOS_RERAISE_WORD := by
    simp only [PYPYDTPOS_RERAISE_WORD, hW]
    omega
  refine ⟨hPN, hax, ha0, ht0, htx, ?_, ?_, ?_, ?_⟩
  · simp [kindOfWords, hax, ha0]
  · simp [kindOfWords, hNP, ht0]
  · simp [kindOfWords]
  · simp [kindOfWords, hNP]

/-- Witness for C8: location at address 8, token at address 8, exctype word 0. -/
theorem C8_witness :
    PYPYDTPOS_RERAISE_WORD ≠ NULL_WORD
    ∧ (8 : Nat) ≠ PYPYDTPOS_RERAISE_WORD ∧ (8 : Nat) ≠ NULL_WORD
    ∧ (8 : Nat) ≠ NULL_WORD ∧ (8 : Nat) ≠ PYPYDTPOS_RERAISE_WORD
    ∧ kindOfWords 8 0 = EntryKind.frameK
    ∧ kindOfWords NULL_WORD 8 = EntryKind.originK
    ∧ kindOfWords PYPYDTPOS_RERAISE_WORD 0 = EntryKind.reraiseK
    ∧ kindOfWords NULL_WORD NULL_WORD = EntryKind.emptyK :=
  C8_sentinel_distinguishable 8 8 0 (by decide) (by decide)

/-- C9: the stored representation admits, and the header's documented buffer
protocol uses, a fourth entry shape beyond the spec's three tagged variants:
an entry carrying both a real location and an exception token (the
finally-block row `f:17 / &KeyError`), which is neither a pure `Frame`, nor
a pure `Origin`, nor a pure `Reraise`, and which `PYPYDTSTORE` stores
verbatim. -/
theorem C9_fourth_entry_shape :
    (⟨LocPtr.valid pos_f17, some 1⟩ : pypydtentry_s) ∈ documentedBuffer
    ∧ isPureFrame ⟨LocPtr.valid pos_f17, some 1⟩ = false
    ∧ isPureOrigin ⟨LocPtr.valid pos_f17, some 1⟩ = false
    ∧ isPureReraise ⟨LocPtr.valid pos_f17, some 1⟩ = false
    ∧ (PYPYDTSTORE 128 (LocPtr.valid pos_f17) (some 1)
        (freshState 128)).pypy_debug_tracebacks.getD 0 emptyEntry
        = ⟨LocPtr.valid pos_f17, some 1⟩ :=
  ⟨by decide, rfl, rfl, rfl, by decide⟩

/-- C10: the entry-point macros defined in this header expand to nothing:
for every store state they leave the buffer and cursor unchanged and produce
no output. -/
theorem C10_elided_macros_are_noops (s : DTState) (etype etp tok : Token)
    (fn1 fn2 : String) (b : Bool) :
    OP_DEBUG_START_TRACEBACK etype s = (s, [])
    ∧ OP_DEBUG_RERAISE_TRACEBACK etp s = (s, [])
    ∧ OP_DEBUG_PRINT_TRACEBACK s = (s, [])
    ∧ PYPY_DEBUG_RECORD_TRACEBACK fn1 s = (s, [])
    ∧ PYPY_DEBUG_CATCH_EXCEPTION fn2 tok b s = (s, []) :=
  ⟨rfl, rfl, rfl, rfl, rfl⟩

end DebugTraceback
